import Mathlib

/-!
# Verification of the Rag-vs-GraphRag retrieval pipeline

A shallow embedding, in Lean 4, of the core logic of the repository
`dipenvekaria/Rag-vs-GraphRag` (files `vector_processor.py`,
`graph_processor.py`, `hybrid_processor.py`, `utils.py`).

Modelling conventions:

* Python strings are Lean `String`s; all string manipulation is re-implemented
  over `List Char` with structural (or fuel-bounded) recursion so that concrete
  evaluations reduce in the kernel.  Python `str.strip`/`str.lower`/`str.upper`
  are modelled for the ASCII range (all strings produced and inspected by this
  code are ASCII).  The `\x0b`/`\x0c` whitespace characters of Python are
  included in the whitespace predicate.
* Calls to external services (OpenAI embeddings / chat completions, Qdrant,
  Neo4j sessions) are modelled as explicit parameters of type
  `Except String α`: `.error e` models the Python call raising an exception
  whose `str(e)` is `e`, `.ok v` models a successful reply.  A Python function
  without a `try`/`except` is modelled as an `Except`-valued function that
  propagates `.error`; a function with a catch-all `except` is total.
* Floating point similarity scores from `sklearn.cosine_similarity` are
  abstracted to an arbitrary linearly ordered type (the chunker only compares
  them against a threshold); the embedding vectors themselves are an abstract
  type parameter.
* `time.sleep`, logging, and the literal text of the LLM prompts are not
  modelled (the prompts are opaque inputs to the external generative service,
  which is itself a parameter).
-/

/-! ## Basic character and string machinery -/

/-- Python regex `\s` / `str.strip` whitespace, ASCII range
(space, tab, newline, carriage return, vertical tab, form feed). -/
def pySpace (c : Char) : Bool :=
  c = ' ' || c = '\t' || c = '\n' || c = '\r' || c = Char.ofNat 11 || c = Char.ofNat 12

/-- Python regex `\w` word character (ASCII range). -/
def wordChar (c : Char) : Bool :=
  c.isAlpha || c.isDigit || c = '_'

/-- ASCII lower-casing, as Python `str.lower` acts on ASCII text. -/
def asciiLower (c : Char) : Char :=
  if 'A' ≤ c && c ≤ 'Z' then Char.ofNat (c.toNat + 32) else c

/-- ASCII upper-casing, as Python `str.upper` acts on ASCII text. -/
def asciiUpper (c : Char) : Char :=
  if 'a' ≤ c && c ≤ 'z' then Char.ofNat (c.toNat - 32) else c

def lowerStr (s : String) : String := String.mk (s.data.map asciiLower)

def upperStr (s : String) : String := String.mk (s.data.map asciiUpper)

/-- Python `str.strip()` on a character list. -/
def stripChars (l : List Char) : List Char :=
  ((l.dropWhile pySpace).reverse.dropWhile pySpace).reverse

/-- Python `str.strip()`. -/
def pyStrip (s : String) : String := String.mk (stripChars s.data)

/-- Index of the first occurrence of `pat` (Python `str.find`, as `Option`). -/
def findSub (pat : List Char) : List Char → Option Nat
  | [] => if pat.isEmpty then some 0 else none
  | c :: cs => if pat.isPrefixOf (c :: cs) then some 0 else (findSub pat cs).map (· + 1)

/-- Python `pat in s` substring containment. -/
def containsSub (pat l : List Char) : Bool :=
  (findSub pat l).isSome

/-- Python `str.replace(pat, "")`: remove every (leftmost-first,
non-overlapping) occurrence of the non-empty pattern `pat`.
The `Nat` argument is recursion fuel, always called with the input length. -/
def removeAllAux (pat : List Char) : Nat → List Char → List Char
  | _, [] => []
  | 0, l => l
  | fuel + 1, c :: cs =>
    if pat ≠ [] && pat.isPrefixOf (c :: cs) then
      removeAllAux pat fuel ((c :: cs).drop pat.length)
    else
      c :: removeAllAux pat fuel cs

def removeAll (pat l : List Char) : List Char := removeAllAux pat l.length l

/-- Python `str.split(sep)` for a non-empty separator.
The `Nat` argument is recursion fuel, always called with the input length. -/
def splitOnAuxL (sep : List Char) : Nat → List Char → List (List Char)
  | _, [] => [[]]
  | 0, l => [l]
  | fuel + 1, c :: cs =>
    if sep.isPrefixOf (c :: cs) then
      [] :: splitOnAuxL sep fuel ((c :: cs).drop sep.length)
    else
      match splitOnAuxL sep fuel cs with
      | [] => [[c]]
      | p :: ps => (c :: p) :: ps

def splitOnL (sep l : List Char) : List (List Char) := splitOnAuxL sep l.length l

/-- Python `sep.join(strs)`. -/
def joinWith (sep : String) (l : List String) : String :=
  String.mk (List.intercalate sep.data (l.map String.data))

/-- Models adding to a Python `set` (only membership and emptiness of the
resulting set are relevant downstream): append if not already present. -/
def insertNew (acc : List String) (s : String) : List String :=
  if s ∈ acc then acc else acc ++ [s]

/-! ## Semantic chunker (`VectorDBProcessor._chunk_text`, vector_processor.py 34-78)

`re.split(r'(?<=[.!?])\s+', text)` splits the text at each maximal run of
whitespace that is immediately preceded by `.`, `!` or `?`; the whitespace is
consumed.  `rawSentenceSplit` implements exactly this split, scanning left to
right (`gap = true` while consuming the whitespace run of a match). -/

def sentencePunct (c : Char) : Bool :=
  c = '.' || c = '!' || c = '?'

def headIsPunct : List Char → Bool
  | [] => false
  | c :: _ => sentencePunct c

def rawSplitAux (acc : List Char) (gap : Bool) : List Char → List (List Char)
  | [] => [acc.reverse]
  | c :: cs =>
    if gap then
      if pySpace c then rawSplitAux acc true cs
      else rawSplitAux [c] false cs
    else
      if pySpace c && headIsPunct acc then
        acc.reverse :: rawSplitAux [] true cs
      else
        rawSplitAux (c :: acc) false cs

def rawSentenceSplit (text : String) : List (List Char) :=
  rawSplitAux [] false text.data

/-- `[s.strip() for s in re.split(r'(?<=[.!?])\s+', text) if s.strip()]` -/
def splitSentences (text : String) : List String :=
  ((rawSentenceSplit text).map (fun l => String.mk (stripChars l))).filter (· ≠ "")

/-- Loop state of the greedy chunking loop: committed `chunks`, the current
`chunk` (list of sentences), its sentence embeddings `chunkEmb`, and the
running character-length estimate `chunk_token_length` (`len`). -/
structure ChunkState (E : Type) where
  chunks : List String
  chunk : List String
  chunkEmb : List E
  len : Nat
deriving DecidableEq

/-- One iteration of the greedy loop of `_chunk_text` (lines 51-74).
`sim` abstracts `cosine_similarity([embedding], [chunk_embedding[-1]])[0][0]`
into a linearly ordered score type `S`; `τ` is `similarity_threshold`.
The branch structure mirrors the Python exactly: an empty current chunk is
(re)started with the sentence; otherwise the length test
`chunk_token_length + len(sentence) > max_chunk_size` is decided first, and
only under `similarity > similarity_threshold` is the sentence appended;
on either close, the current chunk is committed only if its accumulated
length is at least `min_chunk_size`. -/
def chunkStep {E S : Type} [LinearOrder S] (sim : E → E → S)
    (maxSz minSz : Nat) (τ : S) (st : ChunkState E) (se : String × E) : ChunkState E :=
  let sentence := se.1
  let embedding := se.2
  if st.chunk = [] then
    ⟨st.chunks, [sentence], [embedding], sentence.length⟩
  else
    let similarity := sim embedding (st.chunkEmb.getLastD embedding)
    if st.len + sentence.length > maxSz then
      ⟨st.chunks ++ (if minSz ≤ st.len then [joinWith " " st.chunk] else []),
        [sentence], [embedding], sentence.length⟩
    else if τ < similarity then
      ⟨st.chunks, st.chunk ++ [sentence], st.chunkEmb ++ [embedding],
        st.len + sentence.length⟩
    else
      ⟨st.chunks ++ (if minSz ≤ st.len then [joinWith " " st.chunk] else []),
        [sentence], [embedding], sentence.length⟩

/-- `list(dict.fromkeys(chunks))`: deduplicate keeping first occurrences. -/
def dedupFirstAux (seen : List String) : List String → List String
  | [] => []
  | x :: xs => if x ∈ seen then dedupFirstAux seen xs else x :: dedupFirstAux (x :: seen) xs

def dedupFirst (l : List String) : List String := dedupFirstAux [] l

/-- Final commit of `_chunk_text` (line 76): after the loop, the trailing
chunk is committed when it is non-empty and meets the minimum length or no
chunk has been committed yet. -/
def commitTrailing {E : Type} (minSz : Nat) (st : ChunkState E) : List String :=
  if st.chunk ≠ [] ∧ (minSz ≤ st.len ∨ st.chunks = []) then
    st.chunks ++ [joinWith " " st.chunk]
  else st.chunks

/-- `_chunk_text` after sentence embedding: fold the greedy loop over the
(sentence, embedding) pairs, commit the trailing chunk, then deduplicate. -/
def chunkSentences {E S : Type} [LinearOrder S] (sim : E → E → S)
    (maxSz minSz : Nat) (τ : S) (sentEmb : List (String × E)) : List String :=
  dedupFirst (commitTrailing minSz
    (sentEmb.foldl (chunkStep sim maxSz minSz τ) ⟨[], [], [], 0⟩))

/-- `VectorDBProcessor._chunk_text(text, max_chunk_size, min_chunk_size,
similarity_threshold)`, with the batched embedding call abstracted to the
(total) function `embedF` and cosine similarity to `sim`.  An input with no
surviving sentences returns the empty chunk list (line 38). -/
def chunkText {E S : Type} [LinearOrder S] (embedF : String → E) (sim : E → E → S)
    (maxSz minSz : Nat) (τ : S) (text : String) : List String :=
  let sentences := splitSentences text
  if sentences = [] then []
  else chunkSentences sim maxSz minSz τ (sentences.map (fun s => (s, embedF s)))


/-! ## Claims C3 and C6: chunker properties -/

theorem chunkStep_chunk_ne_nil {E S : Type} [LinearOrder S] (sim : E → E → S)
    (maxSz minSz : Nat) (τ : S) (st : ChunkState E) (se : String × E) :
    (chunkStep sim maxSz minSz τ st se).chunk ≠ [] := by
  unfold chunkStep
  dsimp only
  split
  · simp
  · split
    · simp
    · split <;> simp

theorem foldl_chunkStep_chunk_ne_nil {E S : Type} [LinearOrder S] (sim : E → E → S)
    (maxSz minSz : Nat) (τ : S) (l : List (String × E)) :
    ∀ st : ChunkState E, st.chunk ≠ [] →
      (l.foldl (chunkStep sim maxSz minSz τ) st).chunk ≠ [] := by
  induction l with
  | nil => intro st h; simpa using h
  | cons x xs ih =>
    intro st _
    rw [List.foldl_cons]
    exact ih _ (chunkStep_chunk_ne_nil sim maxSz minSz τ st x)

theorem dedupFirst_ne_nil (l : List String) (h : l ≠ []) : dedupFirst l ≠ [] := by
  match l with
  | [] => exact absurd rfl h
  | x :: xs => simp [dedupFirst, dedupFirstAux]

theorem chunkSentences_ne_nil {E S : Type} [LinearOrder S] (sim : E → E → S)
    (maxSz minSz : Nat) (τ : S) (l : List (String × E)) (h : l ≠ []) :
    chunkSentences sim maxSz minSz τ l ≠ [] := by
  unfold chunkSentences
  have hchunk : (l.foldl (chunkStep sim maxSz minSz τ) ⟨[], [], [], 0⟩).chunk ≠ [] := by
    cases l with
    | nil => exact absurd rfl h
    | cons x xs =>
      rw [List.foldl_cons]
      exact foldl_chunkStep_chunk_ne_nil sim maxSz minSz τ xs _
        (chunkStep_chunk_ne_nil sim maxSz minSz τ _ x)
  apply dedupFirst_ne_nil
  unfold commitTrailing
  split
  · simp
  · next hcond =>
    intro hnil
    exact hcond ⟨hchunk, Or.inr hnil⟩

/-- Claim C3 (counterexample): the claim quantifies over every non-empty input
text, but the whitespace-only text `" "` is non-empty while the sentence split
leaves no sentences, so `_chunk_text` returns the empty chunk list (line 38 of
vector_processor.py) under the default parameters `max_chunk_size=500`,
`min_chunk_size=100`, `similarity_threshold=0.5`. -/
theorem c3_counterexample :
    (" " : String) ≠ "" ∧
      chunkText (fun _ => ()) (fun _ _ => (0 : ℚ)) 500 100 (1/2) " " = [] := by
  constructor
  · decide
  · rfl

/-- Claim C3 (amended): for every input text from which the sentence-splitting
step extracts at least one sentence (equivalently, any text containing a
non-whitespace character), `_chunk_text` returns at least one chunk, even when
the accumulated length of every candidate chunk is below `min_chunk_size`: the
trailing chunk is committed whenever no chunk has been committed yet. -/
theorem c3_amended {E S : Type} [LinearOrder S] (embedF : String → E) (sim : E → E → S)
    (maxSz minSz : Nat) (τ : S) (text : String)
    (h : splitSentences text ≠ []) :
    chunkText embedF sim maxSz minSz τ text ≠ [] := by
  unfold chunkText
  rw [if_neg h]
  exact chunkSentences_ne_nil sim maxSz minSz τ _ (by simpa using h)

/-- Claim C3 witness: the text `"hi"` yields a sentence, and chunking it with
the default parameters returns a (non-empty) chunk list even though its length
is below `min_chunk_size = 100`. -/
theorem c3_amended_witness :
    splitSentences "hi" ≠ [] ∧
      chunkText (fun _ => ()) (fun _ _ => (0 : Int)) 500 100 0 "hi" ≠ [] :=
  ⟨by decide, c3_amended (fun _ => ()) (fun _ _ => (0 : Int)) 500 100 0 "hi" (by decide)⟩

/-- Claim C6 (confirmed): in the greedy loop of `_chunk_text`, a sentence is
appended to the (non-empty) current chunk if and only if the running length
estimate after appending stays at most `max_chunk_size` AND its similarity to
the last sentence of the current chunk exceeds `similarity_threshold`; the
length test is decided first, and when appending would exceed the bound the
current chunk is closed (committed only if it meets `min_chunk_size`) and a
new chunk is started with the sentence, regardless of the similarity score. -/
theorem c6_append_iff {E S : Type} [LinearOrder S] (sim : E → E → S)
    (maxSz minSz : Nat) (τ : S) (st : ChunkState E) (s : String) (e : E)
    (h : st.chunk ≠ []) :
    ((chunkStep sim maxSz minSz τ st (s, e)).chunk = st.chunk ++ [s]
      ↔ st.len + s.length ≤ maxSz ∧ τ < sim e (st.chunkEmb.getLastD e))
    ∧ (maxSz < st.len + s.length →
        (chunkStep sim maxSz minSz τ st (s, e)).chunk = [s]
        ∧ (chunkStep sim maxSz minSz τ st (s, e)).chunks
            = st.chunks ++ (if minSz ≤ st.len then [joinWith " " st.chunk] else [])) := by
  unfold chunkStep
  dsimp only
  rw [if_neg h]
  by_cases hlen : st.len + s.length > maxSz
  · rw [if_pos hlen]
    refine ⟨⟨fun habs => ?_, fun hle => absurd hlen (by omega)⟩, fun _ => ⟨rfl, rfl⟩⟩
    exact absurd (congrArg List.length habs) (by simp [List.length_eq_zero, h])
  · rw [if_neg hlen]
    by_cases hsim : τ < sim e (st.chunkEmb.getLastD e)
    · rw [if_pos hsim]
      exact ⟨⟨fun _ => ⟨by omega, hsim⟩, fun _ => rfl⟩, fun hgt => absurd hgt hlen⟩
    · rw [if_neg hsim]
      refine ⟨⟨fun habs => ?_, fun hc => absurd hc.2 hsim⟩, fun hgt => absurd hgt hlen⟩
      exact absurd (congrArg List.length habs) (by simp [List.length_eq_zero, h])

/-- Claim C6 witness: with current chunk `["aaaa"]` of length 4, sentence
`"bb"` is appended exactly when `4 + 2 ≤ 500` and the similarity `1` exceeds
the threshold `0`. -/
theorem c6_append_iff_witness :
    (ChunkState.chunk ⟨[], ["aaaa"], [(0 : Int)], 4⟩ ≠ []) ∧
      ((chunkStep (fun _ _ => (1 : Int)) 500 100 0 ⟨[], ["aaaa"], [0], 4⟩ ("bb", 7)).chunk
          = ["aaaa"] ++ ["bb"]
        ↔ 4 + String.length "bb" ≤ 500 ∧ (0 : Int) < 1) :=
  ⟨by decide,
    by
      have h := c6_append_iff (fun _ _ => (1 : Int)) 500 100 0
        ⟨[], ["aaaa"], [0], 4⟩ "bb" 7 (by decide)
      simpa using h.1⟩

/-! ## Vector retriever (`VectorDBProcessor`, vector_processor.py)

A stored point's payload (lines 116-122) carries the chunk text and the
originating filename; only the `text` and `original_file_name` payload fields
are read back by `query`, `get_processed_files` and `delete_file_points`, so
the payload is modelled by those two (optional) fields. -/

structure VPoint where
  text? : Option String
  origFile? : Option String
deriving DecidableEq

/-- Result dictionary `{"answer": ..., "chunks": [...]}` of the vector query. -/
structure VecResult where
  answer : String
  chunks : List String
deriving DecidableEq

/-- `VectorDBProcessor.query(question)` (lines 132-169).  The method has no
`try`/`except`: a failure of the embedding call (`_embed_query`), of the
vector search (`query_points`) or of the answer synthesis
(`chat.completions.create`) propagates to the caller, modelled by the
`Except.error` result.  `searchF` returns the (at most top-5) nearest points
produced by the external index; `synth` is the generative answer call,
receiving the question and the concatenated context. -/
def vectorQuery {Emb : Type} (embed : Except String Emb)
    (searchF : Emb → Except String (List VPoint))
    (synth : String → String → Except String String)
    (question : String) : Except String VecResult :=
  match embed with
  | .error e => .error e
  | .ok queryEmbedding =>
    match searchF queryEmbedding with
    | .error e => .error e
    | .ok searchResults =>
      match searchResults with
      | [] => .ok ⟨"No relevant information found.", []⟩
      | top :: _ =>
        let chunks := searchResults.map (fun p => p.text?.getD "No text available")
        let context := joinWith "\n\n" chunks
        let source := top.origFile?.getD "Unknown"
        match synth question context with
        | .error e => .error e
        | .ok raw =>
          let answer := pyStrip raw
          let finalAnswer :=
            if containsSub "context does not".data answer.data then answer
            else answer ++ " [Source: " ++ source ++ "]"
          .ok ⟨finalAnswer, chunks⟩

/-- `VectorDBProcessor.get_processed_files` (lines 171-193): the set of
truthy `original_file_name` payload values over all stored points (the
`scroll` pagination of the index is abstracted to a single pass). -/
def vectorGetProcessedFiles (pts : List VPoint) : Finset String :=
  (pts.filterMap (fun p => match p.origFile? with
    | some f => if f ≠ "" then some f else none
    | none => none)).toFinset

/-- `VectorDBProcessor.delete_file_points(filename)` (lines 195-209): delete
every point whose `original_file_name` payload equals `filename` (the
`time.sleep(0.5)` consistency delay has no effect on the state and is not
modelled), returning the new store and the status string. -/
def vectorDeleteFilePoints (pts : List VPoint) (filename : String) :
    List VPoint × String :=
  (pts.filter (fun p => p.origFile? ≠ some filename),
    "Deleted points for file: " ++ filename)

/-! ## Graph store state (`GraphDBProcessor`, graph_processor.py)

The Neo4j graph is modelled extensionally: `Document` nodes, `Entity` nodes,
`MENTIONED_IN` edges (entity id, document id) and directed `RELATED` edges
with a `type` property. -/

structure GDoc where
  id : String
  filename : String
deriving DecidableEq

structure GEntity where
  id : String
  name : String
  etype : String
deriving DecidableEq

structure GMention where
  ent : String
  doc : String
deriving DecidableEq

structure GRel where
  src : String
  tgt : String
  rtype : String
deriving DecidableEq

structure GraphState where
  docs : List GDoc
  ents : List GEntity
  mentions : List GMention
  rels : List GRel
deriving DecidableEq

/-- Ids of the `Document` nodes matched by
`MATCH (d:Document {filename: $filename})`. -/
def matchedDocIds (st : GraphState) (filename : String) : List String :=
  (st.docs.filter (fun d => d.filename = filename)).map (·.id)

/-- `GraphDBProcessor.delete_file_points(filename)` (lines 341-357) runs the
Cypher

```
MATCH (d:Document {filename: $filename})
OPTIONAL MATCH (d)<-[:MENTIONED_IN]-(e:Entity)
OPTIONAL MATCH (e)-[r:RELATED]-()
DELETE d, r
WITH e
WHERE NOT (e)-[:MENTIONED_IN]->()
DELETE e
```

inside `try`/`except`.  The query uses a plain `DELETE d` and never deletes
the `MENTIONED_IN` edges pointing into `d`, and Neo4j refuses to delete a
node that still has relationships: whenever a matched document has at least
one mention edge (the only edge kind incident to `Document` nodes in this
schema), the query fails with a constraint error (`Cannot delete node,
because it still has relationships`) and the transaction rolls back, leaving
the store unchanged; the handler returns `"Error deleting file: " ++ str(e)`.
`graphDeleteBlocked` is that failure condition. -/
def graphDeleteBlocked (st : GraphState) (filename : String) : Bool :=
  st.mentions.any (fun m => decide (m.doc ∈ matchedDocIds st filename))

/-- The state transformation and status string of `delete_file_points`.
`neoErr` is the `str(e)` of the Neo4j constraint error, opaque to this model.
When no matched document has a mention edge, every row binds `e` (and hence
`r`) to null — `DELETE r`, the `WHERE NOT` filter and `DELETE e` are null
no-ops — so the committed effect is exactly the removal of the matched
`Document` nodes, reported with the success status. -/
def graphDeleteFilePoints (neoErr : String) (st : GraphState) (filename : String) :
    GraphState × String :=
  if graphDeleteBlocked st filename then
    (st, "Error deleting file: " ++ neoErr)
  else
    ({ st with docs := st.docs.filter (fun d => decide (d.id ∉ matchedDocIds st filename)) },
      "Deleted graph data for file: " ++ filename)

/-- `GraphDBProcessor.get_processed_files` (lines 323-339): on a session
failure the `except` handler returns the empty set; otherwise the set of
filenames of `Document` nodes (every modelled document carries a non-null
filename, so the `WHERE d.filename IS NOT NULL` filter keeps all of them). -/
def graphGetProcessedFiles (sess : Except String GraphState) : Finset String :=
  match sess with
  | .error _ => ∅
  | .ok st => (st.docs.map (·.filename)).toFinset

/-! ## Claim C2: graph deletion semantics -/

/-- Concrete two-document graph: `bob` is mentioned by both documents,
`carol` only by `d2`, and one `RELATED` edge `bob -> carol` exists. -/
def c2State : GraphState :=
  { docs := [⟨"d1", "f1"⟩, ⟨"d2", "f2"⟩]
    ents := [⟨"bob", "Bob", "Person"⟩, ⟨"carol", "Carol", "Person"⟩]
    mentions := [⟨"bob", "d1"⟩, ⟨"bob", "d2"⟩, ⟨"carol", "d2"⟩]
    rels := [⟨"bob", "carol", "KNOWS"⟩] }

/-- Claim C2 (code bug): deleting `"f1"` — whose document `d1` mentions
`bob` — trips the un-detached `DELETE d`: the Cypher raises, the transaction
rolls back, the handler returns the error status, and nothing at all is
deleted (the document `d1`, the mention edges and the `RELATED` edge
`bob -> carol` all survive).  The spec's cascade-deletion semantics (remove
the Document, its Relationship edges, and orphaned Entities, preserving
Entities still mentioned elsewhere) is therefore unreachable for any document
that mentions an entity: the code contradicts its own success status
`Deleted graph data for file: ...` and the evident intent of its
orphan-cleanup clause. -/
theorem c2_delete_blocked_code_bug (neoErr : String) :
    graphDeleteBlocked c2State "f1" = true
    ∧ graphDeleteFilePoints neoErr c2State "f1"
        = (c2State, "Error deleting file: " ++ neoErr)
    ∧ (⟨"d1", "f1"⟩ : GDoc) ∈ (graphDeleteFilePoints neoErr c2State "f1").1.docs
    ∧ (⟨"bob", "carol", "KNOWS"⟩ : GRel)
        ∈ (graphDeleteFilePoints neoErr c2State "f1").1.rels := by
  have hb : graphDeleteBlocked c2State "f1" = true := by decide
  have he : graphDeleteFilePoints neoErr c2State "f1"
      = (c2State, "Error deleting file: " ++ neoErr) := by
    unfold graphDeleteFilePoints
    rw [if_pos hb]
  refine ⟨hb, he, ?_, ?_⟩
  · rw [he]
    show (⟨"d1", "f1"⟩ : GDoc) ∈ c2State.docs
    decide
  · rw [he]
    show (⟨"bob", "carol", "KNOWS"⟩ : GRel) ∈ c2State.rels
    decide

/-! ## Graph query translation and validation
(`GraphDBProcessor.query`, graph_processor.py 210-321)

The generated query text is first stripped, then
`re.sub(r'```cypher\s*|\s*```', '', ...)` removes Markdown fences, then the
result is stripped again.  The `re.sub` scans left to right; at each position
the first alternative (the literal fence-with-language tag followed by
optional whitespace) is preferred, otherwise a maximal whitespace run directly
followed by a bare fence matches.  `cleanFencesAux` implements exactly this
scan for a given tagged-fence pattern — `re.sub(r'```json\s*|\s*```', ...)`
of the relation extractor (line 97) has the same shape — (the `Nat` argument
is fuel, always the input length). -/

def cleanFencesAux (tag : List Char) : Nat → List Char → List Char
  | 0, _ => []
  | _, [] => []
  | fuel + 1, c :: cs =>
    if tag.isPrefixOf (c :: cs) then
      cleanFencesAux tag fuel (((c :: cs).drop tag.length).dropWhile pySpace)
    else if "```".data.isPrefixOf ((c :: cs).dropWhile pySpace) then
      cleanFencesAux tag fuel (((c :: cs).dropWhile pySpace).drop 3)
    else
      c :: cleanFencesAux tag fuel cs

/-- `cypher_query = response.choices[0].message.content.strip()` followed by
`cypher_query = re.sub(r'```cypher\s*|\s*```', '', cypher_query).strip()`
(lines 242-245). -/
def cleanQ (raw : String) : String :=
  pyStrip (String.mk
    (cleanFencesAux "```cypher".data (pyStrip raw).data.length (pyStrip raw).data))

/-- `cypher_query.startswith(('MATCH', 'WITH', 'MERGE', 'CREATE', 'RETURN'))`
(line 249). -/
def cypherKeywordOk (q : String) : Bool :=
  "MATCH".data.isPrefixOf q.data || "WITH".data.isPrefixOf q.data ||
    "MERGE".data.isPrefixOf q.data || "CREATE".data.isPrefixOf q.data ||
    "RETURN".data.isPrefixOf q.data

/-- `cypher_query.upper().find("RETURN")` (line 253); `none` models Python's
`-1`. -/
def returnIdx (q : String) : Option Nat :=
  findSub "RETURN".data (q.data.map asciiUpper)

/-- `cypher_query[idx:].lower()`: the result-projection clause.  For
`idx = -1` Python's slice `q[-1:]` is the last character. -/
def returnClause (q : String) : List Char :=
  match returnIdx q with
  | some i => (q.data.drop i).map asciiLower
  | none => (q.data.drop (q.data.length - 1)).map asciiLower

/-- `cypher_query[:idx].lower()`: the matching clause (for `idx = -1`,
Python's `q[:-1]` is all but the last character). -/
def matchClause (q : String) : List Char :=
  match returnIdx q with
  | some i => (q.data.take i).map asciiLower
  | none => (q.data.take (q.data.length - 1)).map asciiLower

/-- `var = var[5:var.find(')')]` for a `var` starting with `type(`
(lines 268-269); a missing `)` makes Python slice to `var[5:-1]`. -/
def typeCallArg (var : List Char) : List Char :=
  match findSub ")".data var with
  | some j => (var.drop 5).take (j - 5)
  | none => (var.drop 5).take (var.length - 1 - 5)

/-- Lines 263-272: split off an `as` alias, then unwrap a `type(...)` call or
take the base of a dotted access. -/
def projectedVar (part : List Char) : List Char :=
  let var :=
    if containsSub " as ".data part then
      stripChars ((splitOnL " as ".data part).headD [])
    else stripChars part
  if "type(".data.isPrefixOf var then typeCallArg var
  else if containsSub ".".data var then (splitOnL ".".data var).headD []
  else var

/-- Lines 254-274: the set of identifiers projected in the RETURN clause
(`return_vars`).  Each comma-separated part is stripped, every occurrence of
the substring `return` is removed, and the resulting identifier is added
unless empty or in `{'type', 'as'}`.  The Python `set` is modelled as a
duplicate-free list (only membership and emptiness are consumed). -/
def returnVarsOf (q : String) : List String :=
  (splitOnL ",".data (returnClause q)).foldl
    (fun acc partRaw =>
      let part := stripChars partRaw
      if part = [] then acc
      else
        let var := projectedVar (stripChars (removeAll "return".data part))
        if var ≠ [] && !(String.mk var = "type" || String.mk var = "as") then
          insertNew acc (String.mk var)
        else acc)
    []

/-- Maximal runs of word characters, each paired with the remainder of the
input after the run; both finditer passes of lines 279-286 only match such
maximal runs (the word-boundary anchors of `\b([a-zA-Z_]\w*)\b` forbid any
shorter match, and a run starting with a digit has no match at all). -/
def identRuns (cur : List Char) : List Char → List (List Char × List Char)
  | [] => if cur = [] then [] else [(cur.reverse, [])]
  | c :: cs =>
    if wordChar c then identRuns (c :: cur) cs
    else if cur = [] then identRuns [] cs
    else (cur.reverse, c :: cs) :: identRuns [] cs

def identStartOk : List Char → Bool
  | [] => false
  | c :: _ => c.isAlpha || c = '_'

/-- The lookahead `(?=:|\s*\x7b|\s*-|\s*\))` of the first pass (line 279):
the run is directly followed by `:`, or by optional whitespace and then an
opening brace, `-` or `)`. -/
def lookAfterOk (rest : List Char) : Bool :=
  rest.head? = some ':' ||
    (match rest.dropWhile pySpace with
     | c :: _ => c = Char.ofNat 123 || c = '-' || c = ')'
     | [] => false)

/-- Stoplist of the second, fallback pass (lines 284-285). -/
def cypherStopWords : List String :=
  ["match", "optional", "related", "mentioned_in", "entity", "document",
    "name", "where", "contains"]

/-- Lines 277-286: `defined_vars`, the identifiers collected from the
matching clause: first every maximal identifier adjacent to a type marker,
brace or relationship arrow (`lookAfterOk`), then every remaining identifier
not in the stoplist. -/
def definedVarsOf (q : String) : List String :=
  let runs := identRuns [] (matchClause q)
  let pass1 := runs.foldl
    (fun acc tr =>
      if identStartOk tr.1 && lookAfterOk tr.2 then insertNew acc (String.mk tr.1)
      else acc) []
  runs.foldl
    (fun acc tr =>
      if identStartOk tr.1 && !(cypherStopWords.contains (String.mk tr.1)) then
        insertNew acc (String.mk tr.1)
      else acc) pass1

/-- `undefined_vars = return_vars - defined_vars` (line 288), as the sublist
of projected identifiers not among the defined ones (empty iff the Python set
difference is empty). -/
def undefinedVarsOf (q : String) : List String :=
  (returnVarsOf q).filter (fun v => v ∉ definedVarsOf q)

/-- Lines 249-290: local validation of the generated query.  `.error msg`
models `raise ValueError(msg)`.  (Python renders the offending set with
braces and quotes inside the message; the model joins the names — no claim
depends on the exact rendering, only on the `Graph query failed: ` prefix of
the recovered answer.) -/
def validateCypher (q : String) : Except String Unit :=
  if !(cypherKeywordOk q) then
    .error ("Invalid Cypher query: " ++ q)
  else if undefinedVarsOf q ≠ [] then
    .error ("Undefined variables in RETURN clause: " ++ joinWith ", " (undefinedVarsOf q))
  else .ok ()

/-- Result dictionary `{"answer": ..., "chunks": [...]}` of the graph query;
`Row` abstracts the Neo4j `record.data()` dictionaries, rendered to display
strings by a `rowStr` parameter (`str(record)`). -/
structure GraphResult (Row : Type) where
  answer : String
  chunks : List Row
deriving DecidableEq

/-- `GraphDBProcessor.query(question)` (lines 210-321).  The whole body runs
inside `try`; any failure of the query-generation call (`gen`), the local
validation, the session execution (`exec`) or the answer synthesis (`synth`)
is caught by the `except` handler, which returns
`{"answer": f"Graph query failed: {str(e)}", "chunks": []}`.  Zero result
rows serialize to the empty context, which returns the no-information
sentinel before any synthesis call. -/
def graphQuery {Row : Type} (rowStr : Row → String)
    (gen : Except String String)
    (exec : String → Except String (List Row))
    (synth : String → String → Except String String)
    (question : String) : GraphResult Row :=
  match gen with
  | .error e => ⟨"Graph query failed: " ++ e, []⟩
  | .ok raw =>
    match validateCypher (cleanQ raw) with
    | .error msg => ⟨"Graph query failed: " ++ msg, []⟩
    | .ok _ =>
      match exec (cleanQ raw) with
      | .error e => ⟨"Graph query failed: " ++ e, []⟩
      | .ok records =>
        if joinWith "\n" (records.map rowStr) = "" then
          ⟨"No relevant information found in graph.", []⟩
        else
          match synth question (joinWith "\n" (records.map rowStr)) with
          | .error e => ⟨"Graph query failed: " ++ e, []⟩
          | .ok rawAns => ⟨pyStrip rawAns, records⟩

/-! ## Claims C4, C8, C1: query paths -/

/-- Claim C4 (confirmed): whenever the generated (cleaned) query fails the
local validation — it does not begin with one of the permitted leading
keywords, or it projects an identifier that the heuristic scan of the
matching clause did not collect as bound — `query` raises `ValueError` before
touching the graph store, the catch-all handler turns it into the
query-failure answer with empty evidence, and the query is never executed:
the result is the same for every execution function `exec`. -/
theorem c4_invalid_query_rejected {Row : Type} (rowStr : Row → String) (raw : String)
    (h : cypherKeywordOk (cleanQ raw) = false ∨ undefinedVarsOf (cleanQ raw) ≠ []) :
    ∃ msg, validateCypher (cleanQ raw) = .error msg ∧
      ∀ (exec : String → Except String (List Row))
        (synth : String → String → Except String String) (question : String),
        graphQuery rowStr (.ok raw) exec synth question
          = ⟨"Graph query failed: " ++ msg, []⟩ := by
  have hval : ∃ msg, validateCypher (cleanQ raw) = .error msg := by
    unfold validateCypher
    by_cases hk : cypherKeywordOk (cleanQ raw)
    · have hu : undefinedVarsOf (cleanQ raw) ≠ [] := h.resolve_left (by simp [hk])
      exact ⟨"Undefined variables in RETURN clause: "
          ++ joinWith ", " (undefinedVarsOf (cleanQ raw)), by simp [hk, hu]⟩
    · exact ⟨"Invalid Cypher query: " ++ cleanQ raw, by simp [hk]⟩
  obtain ⟨msg, hmsg⟩ := hval
  refine ⟨msg, hmsg, fun exec synth question => ?_⟩
  unfold graphQuery
  dsimp only
  rw [hmsg]

/-- Claim C4 witness: the query `MATCH (e:Entity) RETURN zz` projects the
identifier `zz` never bound in its matching clause; validation rejects it and
the result does not depend on the execution function. -/
theorem c4_invalid_query_rejected_witness :
    undefinedVarsOf (cleanQ "MATCH (e:Entity) RETURN zz") ≠ [] ∧
      graphQuery (fun r : String => r) (.ok "MATCH (e:Entity) RETURN zz")
          (fun _ => .ok ["never-executed-row"]) (fun _ _ => .ok "never-called") "q"
        = ⟨"Graph query failed: Undefined variables in RETURN clause: zz", []⟩ := by
  refine ⟨by decide, ?_⟩
  obtain ⟨msg, hmsg, hall⟩ := c4_invalid_query_rejected (fun r : String => r)
    "MATCH (e:Entity) RETURN zz" (Or.inr (by decide))
  have hconcrete : validateCypher (cleanQ "MATCH (e:Entity) RETURN zz")
      = .error "Undefined variables in RETURN clause: zz" := rfl
  rw [hconcrete] at hmsg
  injection hmsg with hmsg'
  subst hmsg'
  exact hall (fun _ => .ok ["never-executed-row"]) (fun _ _ => .ok "never-called") "q"

/-- Claim C8 (confirmed): a query against an empty store — the vector index
returns zero nearest points, or the graph query yields zero result rows —
returns the designated no-information sentinel with an empty evidence list,
for both retrievers, and the result does not depend on the answer-synthesis
functions (they are never called). -/
theorem c8_empty_store_sentinel {Emb Row : Type} (rowStr : Row → String)
    (embed : Except String Emb) (qe : Emb)
    (searchF : Emb → Except String (List VPoint))
    (vsynth : String → String → Except String String)
    (gen : Except String String) (raw : String)
    (exec : String → Except String (List Row))
    (gsynth : String → String → Except String String) (question : String)
    (hembed : embed = .ok qe) (hsearch : searchF qe = .ok [])
    (hgen : gen = .ok raw) (hval : validateCypher (cleanQ raw) = .ok ())
    (hexec : exec (cleanQ raw) = .ok []) :
    vectorQuery embed searchF vsynth question
        = .ok ⟨"No relevant information found.", []⟩
    ∧ graphQuery rowStr gen exec gsynth question
        = ⟨"No relevant information found in graph.", []⟩ := by
  subst hembed hgen
  constructor
  · unfold vectorQuery
    dsimp only
    rw [hsearch]
  · unfold graphQuery
    dsimp only
    rw [hval, hexec]
    rfl

/-- Claim C8 witness: an empty vector index and a validated graph query with
zero rows, with synthesis functions that would be detectable if called. -/
theorem c8_empty_store_sentinel_witness :
    vectorQuery (.ok ()) (fun _ : Unit => .ok [])
        (fun _ _ => .ok "never-called") "q"
      = .ok ⟨"No relevant information found.", []⟩
    ∧ graphQuery (fun r : String => r) (.ok "MATCH (e:Entity) RETURN e.name")
        (fun _ => .ok []) (fun _ _ => .ok "never-called") "q"
      = ⟨"No relevant information found in graph.", []⟩ :=
  c8_empty_store_sentinel (fun r : String => r) (.ok ()) () (fun _ : Unit => .ok [])
    (fun _ _ => .ok "never-called") (.ok "MATCH (e:Entity) RETURN e.name")
    "MATCH (e:Entity) RETURN e.name" (fun _ => .ok [])
    (fun _ _ => .ok "never-called") "q" rfl rfl rfl rfl rfl

/-- Claim C1 (counterexample): `VectorDBProcessor.query` has no exception
handler; when the embedding call fails, the exception propagates to the
caller (`Except.error`) instead of a sentinel failed-answer value, so the
claimed recovery does not hold for the vector retriever. -/
theorem c1_counterexample :
    vectorQuery (.error "embedding service unavailable")
        (fun _ : Unit => .ok []) (fun _ _ => .ok "answer") "q"
      = .error "embedding service unavailable" := rfl

/-- Claim C1 (amended): the graph retriever's `query` recovers every external
service failure inside it — query generation, store execution and answer
synthesis — as the sentinel `Graph query failed: ...` answer with empty
evidence; the vector retriever's `query`, by contrast, has no handler and
propagates an embedding-call failure to its caller. -/
theorem c1_amended {Emb Row : Type} (rowStr : Row → String) (e : String)
    (exec : String → Except String (List Row))
    (synth : String → String → Except String String)
    (searchF : Emb → Except String (List VPoint))
    (vsynth : String → String → Except String String) (question : String) :
    (graphQuery rowStr (.error e) exec synth question
        = ⟨"Graph query failed: " ++ e, []⟩)
    ∧ (∀ raw, validateCypher (cleanQ raw) = .ok () → exec (cleanQ raw) = .error e →
        graphQuery rowStr (.ok raw) exec synth question
          = ⟨"Graph query failed: " ++ e, []⟩)
    ∧ (∀ raw records, validateCypher (cleanQ raw) = .ok () →
        exec (cleanQ raw) = .ok records →
        joinWith "\n" (records.map rowStr) ≠ "" →
        synth question (joinWith "\n" (records.map rowStr)) = .error e →
        graphQuery rowStr (.ok raw) exec synth question
          = ⟨"Graph query failed: " ++ e, []⟩)
    ∧ (vectorQuery (.error e) searchF vsynth question = .error e) := by
  refine ⟨rfl, ?_, ?_, rfl⟩
  · intro raw hval hexec
    unfold graphQuery
    dsimp only
    rw [hval, hexec]
  · intro raw records hval hexec hctx hsynth
    unfold graphQuery
    dsimp only
    rw [hval, hexec]
    dsimp only
    rw [if_neg hctx, hsynth]

/-- Claim C1 amended witness: a failing store execution is recovered by the
graph retriever while a failing embedding call propagates out of the vector
retriever. -/
theorem c1_amended_witness :
    (graphQuery (fun r : String => r) (.error "boom") (fun _ => .error "boom")
        (fun _ _ => .ok "a") "q" = ⟨"Graph query failed: boom", []⟩)
    ∧ (graphQuery (fun r : String => r) (.ok "MATCH (e:Entity) RETURN e.name")
        (fun _ => .error "boom") (fun _ _ => .ok "a") "q"
          = ⟨"Graph query failed: boom", []⟩)
    ∧ (vectorQuery (.error "boom") (fun _ : Unit => .ok [])
        (fun _ _ => .ok "a") "q" = .error "boom") := by
  have h := c1_amended (fun r : String => r) "boom"
    (fun _ => .error "boom") (fun _ _ => .ok "a") (fun _ : Unit => .ok [])
    (fun _ _ => .ok "a") "q"
  exact ⟨h.1, h.2.1 "MATCH (e:Entity) RETURN e.name" rfl rfl, h.2.2.2⟩

/-! ## Hybrid combiner (`HybridProcessor`, hybrid_processor.py) -/

/-- `HybridProcessor.delete_file_points(filename)` (hybrid_processor.py
56-59): attempt the vector deletion, then the graph deletion (each total:
the vector delete is a filter, the graph delete recovers its constraint
error as a status string), and return the two status strings joined by a
newline. -/
def hybridDeleteFilePoints (neoErr : String) (vst : List VPoint) (gst : GraphState)
    (filename : String) : (List VPoint × GraphState) × String :=
  (((vectorDeleteFilePoints vst filename).1,
      (graphDeleteFilePoints neoErr gst filename).1),
    (vectorDeleteFilePoints vst filename).2 ++ "\n"
      ++ (graphDeleteFilePoints neoErr gst filename).2)

/-- `HybridProcessor.get_processed_files` (lines 51-54): the intersection of
the two stores' listings. -/
def hybridGetProcessedFiles (vst : List VPoint) (gsess : Except String GraphState) :
    Finset String :=
  vectorGetProcessedFiles vst ∩ graphGetProcessedFiles gsess

/-- Hybrid query result: the fused answer and both evidence sets, kept
separate under the `vector` and `graph` keys of the `chunks` dictionary. -/
structure HybridResult (Row : Type) where
  answer : String
  vectorChunks : List String
  graphChunks : List Row
deriving DecidableEq

/-- `combined_context` of `HybridProcessor.query` (line 25). -/
def combinedContext (vans gans : String) : String :=
  "Vector DB Context:\n" ++ vans ++ "\n\nGraph DB Context:\n" ++ gans

/-- `HybridProcessor.query(question)` (lines 21-49): run the vector query
(whose exceptions propagate — there is no handler in `HybridProcessor`
either), run the graph query (total), fuse both answers through the
generative call `fuse` on the combined context, and return the fused answer
with both evidence lists unmerged. -/
def hybridQuery {Emb Row : Type} (rowStr : Row → String)
    (embed : Except String Emb)
    (searchF : Emb → Except String (List VPoint))
    (vsynth : String → String → Except String String)
    (gen : Except String String)
    (exec : String → Except String (List Row))
    (gsynth : String → String → Except String String)
    (fuse : String → String → Except String String)
    (question : String) : Except String (HybridResult Row) :=
  match vectorQuery embed searchF vsynth question with
  | .error e => .error e
  | .ok vres =>
    match fuse question
        (combinedContext vres.answer
          (graphQuery rowStr gen exec gsynth question).answer) with
    | .error e => .error e
    | .ok raw =>
      .ok ⟨pyStrip raw, vres.chunks,
        (graphQuery rowStr gen exec gsynth question).chunks⟩

/-! ## Claims C7, C9, C10: hybrid combiner -/

theorem matchedDocIds_eq_nil (st : GraphState) (f : String)
    (h : f ∉ graphGetProcessedFiles (.ok st)) : matchedDocIds st f = [] := by
  unfold matchedDocIds
  rw [List.filter_eq_nil_iff.mpr, List.map_nil]
  intro d hd hf
  exact h (by
    show f ∈ (st.docs.map (·.filename)).toFinset
    rw [List.mem_toFinset, List.mem_map]
    exact ⟨d, hd, of_decide_eq_true hf⟩)

/-- A filename matching no `Document` node: the Cypher matches nothing, so
the deletion is a successful no-op with the success status. -/
theorem graphDeleteFilePoints_no_match (neoErr : String) (st : GraphState) (f : String)
    (h : matchedDocIds st f = []) :
    graphDeleteFilePoints neoErr st f = (st, "Deleted graph data for file: " ++ f) := by
  have hb : graphDeleteBlocked st f = false := by
    unfold graphDeleteBlocked
    rw [List.any_eq_false]
    intro m _
    simp [h]
  unfold graphDeleteFilePoints
  rw [hb]
  simp only [Bool.false_eq_true, if_false]
  have hdocs : st.docs.filter (fun d => decide (d.id ∉ matchedDocIds st f)) = st.docs := by
    rw [List.filter_eq_self]
    intro d _
    simp [h]
  rw [hdocs]

/-- Claim C7 (confirmed): for a filename present in only one of the two
stores, the hybrid deletion returns the newline-concatenation of the two
stores' independently produced status strings — each status is whatever that
store's own (total, non-raising) deletion reported: the vector deletion
always reports its filter-based status, and when the filename is absent from
the graph store the graph deletion is a successful no-op reporting its
success status (when it is present, the graph deletion reports its own
outcome, success or recovered constraint error). -/
theorem c7_partial_deletion_status (neoErr : String) (vst : List VPoint)
    (gst : GraphState) (f : String)
    (_h : (f ∈ vectorGetProcessedFiles vst ∧ f ∉ graphGetProcessedFiles (.ok gst))
      ∨ (f ∉ vectorGetProcessedFiles vst ∧ f ∈ graphGetProcessedFiles (.ok gst))) :
    (hybridDeleteFilePoints neoErr vst gst f).2
        = (vectorDeleteFilePoints vst f).2 ++ "\n"
          ++ (graphDeleteFilePoints neoErr gst f).2
    ∧ (vectorDeleteFilePoints vst f).2 = "Deleted points for file: " ++ f
    ∧ (f ∉ graphGetProcessedFiles (.ok gst) →
        graphDeleteFilePoints neoErr gst f
          = (gst, "Deleted graph data for file: " ++ f)) :=
  ⟨rfl, rfl, fun habs =>
    graphDeleteFilePoints_no_match neoErr gst f (matchedDocIds_eq_nil gst f habs)⟩

/-- Claim C7 witness: `"a.pdf"` is stored only in the vector store; hybrid
deletion reports the vector deletion status and the graph no-op success
status, concatenated, without raising. -/
theorem c7_partial_deletion_status_witness :
    ("a.pdf" ∈ vectorGetProcessedFiles [⟨some "t", some "a.pdf"⟩] ∧
      "a.pdf" ∉ graphGetProcessedFiles (.ok ⟨[⟨"d1", "b.pdf"⟩], [], [], []⟩)) ∧
    (hybridDeleteFilePoints "neo-error" [⟨some "t", some "a.pdf"⟩]
        ⟨[⟨"d1", "b.pdf"⟩], [], [], []⟩ "a.pdf").2
      = ("Deleted points for file: " ++ "a.pdf") ++ "\n"
        ++ ("Deleted graph data for file: " ++ "a.pdf") := by
  refine ⟨⟨by decide, by decide⟩, ?_⟩
  obtain ⟨h1, h2, h3⟩ := c7_partial_deletion_status "neo-error" [⟨some "t", some "a.pdf"⟩]
    ⟨[⟨"d1", "b.pdf"⟩], [], [], []⟩ "a.pdf" (Or.inl ⟨by decide, by decide⟩)
  rw [h1, h2, congrArg Prod.snd (h3 (by decide))]

/-- Claim C9 (confirmed): whenever the hybrid query returns a result, that
result carries the vector retriever's evidence list and the graph
retriever's evidence list exactly as those retrievers produced them,
whatever fused answer the generative call synthesizes. -/
theorem c9_hybrid_evidence_preserved {Emb Row : Type} (rowStr : Row → String)
    (embed : Except String Emb)
    (searchF : Emb → Except String (List VPoint))
    (vsynth : String → String → Except String String)
    (gen : Except String String)
    (exec : String → Except String (List Row))
    (gsynth : String → String → Except String String)
    (fuse : String → String → Except String String)
    (question : String) (vres : VecResult) (fused : String)
    (hv : vectorQuery embed searchF vsynth question = .ok vres)
    (hf : fuse question
        (combinedContext vres.answer
          (graphQuery rowStr gen exec gsynth question).answer) = .ok fused) :
    hybridQuery rowStr embed searchF vsynth gen exec gsynth fuse question
      = .ok ⟨pyStrip fused, vres.chunks,
          (graphQuery rowStr gen exec gsynth question).chunks⟩ := by
  unfold hybridQuery
  rw [hv]
  dsimp only
  rw [hf]

/-- Claim C9 witness: concrete vector evidence `["chunk text"]` and graph
evidence `["rowA"]` pass through the hybrid result unmodified even though the
fused answer `"fused"` differs from both answers. -/
theorem c9_hybrid_evidence_preserved_witness :
    vectorQuery (.ok ()) (fun _ : Unit => .ok [⟨some "chunk text", some "file.pdf"⟩])
        (fun _ _ => .ok "va") "q"
      = .ok ⟨"va [Source: file.pdf]", ["chunk text"]⟩
    ∧ hybridQuery (fun r : String => r) (.ok ())
        (fun _ : Unit => .ok [⟨some "chunk text", some "file.pdf"⟩]) (fun _ _ => .ok "va")
        (.ok "MATCH (e:Entity) RETURN e.name") (fun _ => .ok ["rowA"])
        (fun _ _ => .ok "ga") (fun _ _ => .ok "fused") "q"
      = .ok ⟨"fused", ["chunk text"], ["rowA"]⟩ := by
  refine ⟨rfl, ?_⟩
  exact c9_hybrid_evidence_preserved (fun r : String => r) (.ok ())
    (fun _ : Unit => .ok [⟨some "chunk text", some "file.pdf"⟩]) (fun _ _ => .ok "va")
    (.ok "MATCH (e:Entity) RETURN e.name") (fun _ => .ok ["rowA"])
    (fun _ _ => .ok "ga") (fun _ _ => .ok "fused") "q"
    ⟨"va [Source: file.pdf]", ["chunk text"]⟩ "fused" rfl rfl

/-- Claim C10 (confirmed): a failure inside the graph store's file listing is
recovered by its handler as the empty set, and consequently the hybrid
listing — the intersection of the two stores' listings — is empty whatever
files the vector store lists. -/
theorem c10_graph_listing_failure (vst : List VPoint) (e : String) :
    graphGetProcessedFiles (.error e) = ∅
    ∧ hybridGetProcessedFiles vst (.error e) = ∅ := by
  refine ⟨rfl, ?_⟩
  show vectorGetProcessedFiles vst ∩ (∅ : Finset String) = ∅
  exact Finset.inter_empty _

/-! ## Relation extractor
(`GraphDBProcessor._extract_entities_and_relationships`, graph_processor.py
42-149)

The parsed JSON value returned by `json.loads` is modelled by `JValue`
(numbers as integers; the numeric-tower quirks of Python equality such as
`True == 1` play no role in this pipeline, whose ids are strings). -/

inductive JValue where
  | jnull
  | jbool (b : Bool)
  | jnum (n : Int)
  | jstr (s : String)
  | jarr (l : List JValue)
  | jobj (fields : List (String × JValue))

/-- Python dict lookup on the parsed object; `json.loads` keeps the last of
duplicate keys, so later bindings win. -/
def getKey (fields : List (String × JValue)) (k : String) : Option JValue :=
  match fields with
  | [] => none
  | (k', v) :: rest =>
    match getKey rest k with
    | some v' => some v'
    | none => if k' = k then some v else none

def hasKey (fields : List (String × JValue)) (k : String) : Bool :=
  (getKey fields k).isSome

/-- `isinstance(x, list)`. -/
def asArr : JValue → Option (List JValue)
  | .jarr l => some l
  | _ => none

/-- Python hashability: lists and dicts are unhashable, so putting them in a
set or testing membership raises `TypeError` (recovered by the catch-all
handler as an empty result). -/
def hashable : JValue → Bool
  | .jarr _ => false
  | .jobj _ => false
  | _ => true

/-- Python `==` on the hashable JSON scalars. -/
def scalarEq : JValue → JValue → Bool
  | .jnull, .jnull => true
  | .jbool a, .jbool b => a == b
  | .jnum a, .jnum b => a == b
  | .jstr a, .jstr b => a == b
  | _, _ => false

/-- Lines 114-120: an entity must be a dict containing the keys `id`, `name`,
`type` (an unexpected `type` value only logs a warning). -/
def entityOk (e : JValue) : Bool :=
  match e with
  | .jobj f => hasKey f "id" && hasKey f "name" && hasKey f "type"
  | _ => false

/-- `e["id"]` for a validated entity. -/
def entityIdOf (e : JValue) : JValue :=
  match e with
  | .jobj f => (getKey f "id").getD .jnull
  | _ => .jnull

/-- One iteration of the relationship loop (lines 129-140): `none` models
`return {"entities": [], "relationships": []}` (or an uncaught `TypeError` /
`AttributeError` recovered by the catch-all handler into the same value);
`some rel'` is the relationship with its `type` upper-cased in place. -/
def relStep (entities : List JValue) (rel : JValue) : Option JValue :=
  match rel with
  | .jobj f =>
    if !(hasKey f "source" && hasKey f "target" && hasKey f "type") then none
    else if entities.any (fun e => !hashable (entityIdOf e)) then none
    else
      if !hashable ((getKey f "source").getD .jnull) then none
      else if !((entities.map entityIdOf).any (scalarEq ((getKey f "source").getD .jnull))) then
        none
      else if !hashable ((getKey f "target").getD .jnull) then none
      else if !((entities.map entityIdOf).any (scalarEq ((getKey f "target").getD .jnull))) then
        none
      else
        match (getKey f "type").getD .jnull with
        | .jstr t =>
          some (.jobj (f.map (fun p => if p.1 = "type" then (p.1, .jstr (upperStr t)) else p)))
        | _ => none
  | _ => none

/-- The relationship loop: the first failing relationship discards
everything. -/
def relsLoop (entities : List JValue) : List JValue → Option (List JValue)
  | [] => some []
  | r :: rs =>
    match relStep entities r with
    | none => none
    | some r' =>
      match relsLoop entities rs with
      | none => none
      | some rs' => some (r' :: rs')

/-- Lines 100-143: structural validation of the parsed LLM output.  Any
failure yields the empty extraction `([], [])`; success returns the entities
together with the type-upper-cased relationships (the dict that Python
returns is determined by these two lists). -/
def validateExtraction (v : JValue) : List JValue × List JValue :=
  match v with
  | .jobj fields =>
    if hasKey fields "entities" && hasKey fields "relationships" then
      match asArr ((getKey fields "entities").getD .jnull) with
      | some entities =>
        if entities.all entityOk then
          match asArr ((getKey fields "relationships").getD .jnull) with
          | some rels =>
            match relsLoop entities rels with
            | some rels' => (entities, rels')
            | none => ([], [])
          | none => ([], [])
        else ([], [])
      | none => ([], [])
    else ([], [])
  | _ => ([], [])

/-- `GraphDBProcessor._extract_entities_and_relationships(text)`: the LLM
call and `json.loads` are parameters; a failing call or a parse error is
recovered by the handlers (lines 144-149) as the empty extraction.  The
response content is stripped, Markdown `json` fences are removed, and the
result is stripped again before parsing (line 97). -/
def extractEntitiesAndRelationships (llm : Except String String)
    (parse : String → Except String JValue) : List JValue × List JValue :=
  match llm with
  | .error _ => ([], [])
  | .ok content =>
    match parse (pyStrip (String.mk
        (cleanFencesAux "```json".data (pyStrip content).data.length
          (pyStrip content).data))) with
    | .error _ => ([], [])
    | .ok v => validateExtraction v

/-- The `relationships` array of the parsed value (empty if absent or not an
array). -/
def relsOf (v : JValue) : List JValue :=
  match v with
  | .jobj fields => (asArr ((getKey fields "relationships").getD .jnull)).getD []
  | _ => []

/-- The `entities` array of the parsed value (empty if absent or not an
array). -/
def entitiesOf (v : JValue) : List JValue :=
  match v with
  | .jobj fields => (asArr ((getKey fields "entities").getD .jnull)).getD []
  | _ => []

def entityIdsOf (v : JValue) : List JValue := (entitiesOf v).map entityIdOf

/-- A relationship object carrying `source`, `target` and `type` whose
`source` or `target` value does not occur among the given entity ids. -/
def relDangling (ids : List JValue) (r : JValue) : Bool :=
  match r with
  | .jobj f =>
    hasKey f "source" && hasKey f "target" && hasKey f "type" &&
      (!(ids.any (scalarEq ((getKey f "source").getD .jnull))) ||
        !(ids.any (scalarEq ((getKey f "target").getD .jnull))))
  | _ => false

/-! ## Claim C5: all-or-nothing discard of dangling relationships -/

theorem relStep_none_of_dangling (entities : List JValue) (r : JValue)
    (hd : relDangling (entities.map entityIdOf) r = true) :
    relStep entities r = none := by
  cases r with
  | jobj f =>
    unfold relDangling at hd
    unfold relStep
    dsimp only at hd ⊢
    have hkeys : (hasKey f "source" && hasKey f "target" && hasKey f "type") = true := by
      rcases Bool.and_eq_true_iff.mp hd with ⟨h1, _⟩
      exact h1
    rw [hkeys]
    simp only [Bool.not_true, Bool.false_eq_true, if_false]
    by_cases hh : entities.any (fun e => !hashable (entityIdOf e)) = true
    · rw [if_pos hh]
    · rw [if_neg hh]
      rcases Bool.and_eq_true_iff.mp hd with ⟨_, hor⟩
      rcases Bool.or_eq_true_iff.mp hor with hsrc | htgt
      · by_cases hhs : hashable ((getKey f "source").getD .jnull) = true
        · simp only [hhs, Bool.not_true, Bool.false_eq_true, if_false]
          rw [if_pos]
          rwa [Bool.not_eq_true'] at hsrc ⊢
        · rw [if_pos]
          simpa using hhs
      · by_cases hhs : hashable ((getKey f "source").getD .jnull) = true
        · simp only [hhs, Bool.not_true, Bool.false_eq_true, if_false]
          by_cases hins : ((entities.map entityIdOf).any
              (scalarEq ((getKey f "source").getD .jnull))) = true
          · simp only [hins, Bool.not_true, Bool.false_eq_true, if_false]
            by_cases hht : hashable ((getKey f "target").getD .jnull) = true
            · simp only [hht, Bool.not_true, Bool.false_eq_true, if_false]
              rw [if_pos]
              rwa [Bool.not_eq_true'] at htgt ⊢
            · rw [if_pos]
              simpa using hht
          · rw [if_pos]
            simpa using hins
        · rw [if_pos]
          simpa using hhs
  | jnull => rfl
  | jbool b => rfl
  | jnum n => rfl
  | jstr s => rfl
  | jarr l => rfl

theorem relsLoop_eq_none (entities : List JValue) (rels : List JValue) (r : JValue)
    (hr : r ∈ rels) (hstep : relStep entities r = none) :
    relsLoop entities rels = none := by
  induction rels with
  | nil => cases hr
  | cons x xs ih =>
    rcases List.mem_cons.mp hr with rfl | hr'
    · unfold relsLoop
      rw [hstep]
    · unfold relsLoop
      cases hx : relStep entities x with
      | none => rfl
      | some x' =>
        rw [ih hr']

/-- Claim C5 (confirmed): a parsed extraction result containing a
relationship whose `source` or `target` id is absent from the entity ids of
the same result is discarded wholesale — the validator returns empty
entities AND empty relationships, never a selectively filtered result. -/
theorem c5_dangling_rel_discards_all (v r : JValue)
    (hr : r ∈ relsOf v) (hd : relDangling (entityIdsOf v) r = true) :
    validateExtraction v = ([], []) := by
  cases v with
  | jobj fields =>
    unfold validateExtraction
    dsimp only
    by_cases hk : (hasKey fields "entities" && hasKey fields "relationships") = true
    case neg => rw [if_neg hk]
    rw [if_pos hk]
    cases hent : asArr ((getKey fields "entities").getD .jnull) with
    | none => rfl
    | some entities =>
      dsimp only
      by_cases hall : entities.all entityOk = true
      case neg => rw [if_neg hall]
      rw [if_pos hall]
      cases hrels : asArr ((getKey fields "relationships").getD .jnull) with
      | none => rfl
      | some rels =>
        dsimp only
        have hrmem : r ∈ rels := by
          have hco : relsOf (.jobj fields) = rels := by
            unfold relsOf
            dsimp only
            rw [hrels]
            rfl
          rwa [hco] at hr
        have hids : entityIdsOf (.jobj fields) = entities.map entityIdOf := by
          unfold entityIdsOf entitiesOf
          dsimp only
          rw [hent]
          rfl
        rw [hids] at hd
        rw [relsLoop_eq_none entities rels r hrmem (relStep_none_of_dangling entities r hd)]
  | jnull => cases hr
  | jbool b => cases hr
  | jnum n => cases hr
  | jstr s => cases hr
  | jarr l => cases hr

/-- Concrete parsed extraction with one entity `a` and a relationship whose
target `zzz` is not among the entity ids. -/
def c5Value : JValue :=
  .jobj [("entities", .jarr [.jobj [("id", .jstr "a"), ("name", .jstr "A"),
            ("type", .jstr "Person")]]),
    ("relationships", .jarr [.jobj [("source", .jstr "a"), ("target", .jstr "zzz"),
            ("type", .jstr "KNOWS")]])]

def c5Rel : JValue :=
  .jobj [("source", .jstr "a"), ("target", .jstr "zzz"), ("type", .jstr "KNOWS")]

/-- Claim C5 witness: the dangling target `zzz` forces the whole result to
the empty extraction. -/
theorem c5_dangling_rel_discards_all_witness :
    relDangling (entityIdsOf c5Value) c5Rel = true ∧
      validateExtraction c5Value = ([], []) :=
  ⟨rfl, c5_dangling_rel_discards_all c5Value c5Rel
    (by
      have hco : relsOf c5Value = [c5Rel] := rfl
      rw [hco]
      exact List.mem_singleton.mpr rfl)
    rfl⟩
